import Mathlib

/-!
Shallow embedding of the D&D combat tracker (`combat-tracker.go`).

Conventions of the embedding:
* Go `int` fields become `Int`.  The arithmetic of `AdjustHP`, whose claims
  quantify over arbitrary deltas that the CLI accepts via `strconv.Atoi`,
  wraps exactly as Go's 64-bit `int` does: every arithmetic step there goes
  through `wrap64`, the two's-complement reduction into
  `[-2^63, 2^63)`.  The remaining arithmetic (round and turn counters in
  `NextTurn`, trailing-name digits in `DuplicateCombatant`, list lengths)
  stays on unbounded `Int`: the claims about it apply only in contexts whose
  values are reached by repeated `+1` from 0 or 1 (or bounded by a name's
  length), where a divergence from Go's `int` would need a pre-state that
  already violates the spec's invariants and is unreachable by the engine.
* Each mutating engine method returns an `OpResult` holding the new tracker
  state together with two booleans recording the method's observable side
  effects: whether it reached its `AutoSave()` call, and whether it printed a
  validation-error message. `AutoSave` itself is a no-op when no save path is
  configured; the boolean records that the call was made, which is what the
  spec's "triggers auto-save" refers to.
* Console output other than error reporting is not modelled.
-/

/-- `Combatant` struct: one entity in combat (`combat-tracker.go` lines 16-25). -/
structure Combatant where
  name : String
  initiative : Int
  maxHP : Int
  currentHP : Int
  isPlayer : Bool
  isConscious : Bool
  temporaryHP : Int
  statusEffects : List String
deriving DecidableEq

/-- `CombatTracker` struct (`combat-tracker.go` lines 28-37).  `saveFilePath`
carries the json:"-" tag in the source: it is excluded from the serialized
payload and zero-valued (`""`) on deserialization. -/
structure CombatTracker where
  combatants : List Combatant
  round : Int
  currentTurnIdx : Int
  isActive : Bool
  campaignName : String
  encounterName : String
  saveFilePath : String
  statusEffects : List String
deriving DecidableEq

/-- `SaveState` struct: the persisted payload (`combat-tracker.go` lines 40-44). -/
structure SaveState where
  combatTracker : CombatTracker
  saveTime : String
  version : String
deriving DecidableEq

/-- Result of one mutating engine operation: the new state, whether the
operation invoked `AutoSave`, and whether it reported a validation error. -/
structure OpResult where
  state : CombatTracker
  autoSaved : Bool
  errored : Bool
deriving DecidableEq

/-- The default status-effect catalog, as listed (twice, identically) in
`NewCombatTracker` (lines 49-65) and `LoadFromFile` (lines 384-400) of the
source.  Note it has 15 entries: the final "Custom Status Effect" entry is
part of the stored list. -/
def defaultEffects : List String :=
  ["Blinded", "Charmed", "Deafened", "Frightened", "Grappled",
   "Incapacitated", "Invisible", "Paralyzed", "Petrified", "Poisoned",
   "Prone", "Restrained", "Stunned", "Unconscious", "Custom Status Effect"]

/-- `NewCombatTracker` (`combat-tracker.go` lines 47-77). -/
def NewCombatTracker : CombatTracker :=
  { combatants := []
    round := 0
    currentTurnIdx := -1
    isActive := false
    campaignName := "Default Campaign"
    encounterName := "Unknown Encounter"
    saveFilePath := ""
    statusEffects := defaultEffects }

/-- In-place update of the element at position `n`, modelling Go's
`&ct.Combatants[index]` pointer mutation; identity when `n` is out of range. -/
def modifyIdx (l : List Combatant) (n : Nat) (f : Combatant → Combatant) :
    List Combatant :=
  match l, n with
  | [], _ => []
  | c :: rest, 0 => f c :: rest
  | c :: rest, Nat.succ m => c :: modifyIdx rest m f

/-- Two's-complement reduction into `[-2^63, 2^63)`, the behavior of Go's
64-bit `int` on overflow; `9223372036854775808 = 2^63` and
`18446744073709551616 = 2^64`.  Applied at every arithmetic step of
`AdjustHP`, whose operands can be arbitrary `strconv.Atoi`-accepted values.
On results that fit in `int64` it is the identity. -/
def wrap64 (x : Int) : Int :=
  (x + 9223372036854775808) % 18446744073709551616 - 9223372036854775808

namespace CombatTracker

/-- `AddCombatant` (`combat-tracker.go` lines 80-95): appends a fresh
combatant with `currentHP = maxHP`, conscious, no temp HP, no status effects;
always auto-saves. -/
def AddCombatant (ct : CombatTracker) (name : String) (initiative maxHP : Int)
    (isPlayer : Bool) : OpResult :=
  ⟨{ ct with
       combatants := ct.combatants ++
         [⟨name, initiative, maxHP, maxHP, isPlayer, true, 0, []⟩] },
    true, false⟩

/-- One insertion step of a descending-by-initiative sort. -/
def insertDesc (c : Combatant) : List Combatant → List Combatant
  | [] => [c]
  | d :: rest =>
      if c.initiative > d.initiative then c :: d :: rest
      else d :: insertDesc c rest

/-- Sorting used by `SortByInitiative` (`combat-tracker.go` lines 98-102).
The source calls `sort.Slice` with comparator `Initiative(i) > Initiative(j)`.
`sort.Slice`'s contract guarantees a permutation of the input ordered by that
comparator but explicitly does NOT guarantee stability, and its tie behavior
differs across Go toolchain versions; this executable model realizes the
guaranteed contract by an insertion sort.  No theorem in this file relies on
the relative order of initiative ties. -/
def sortDesc (l : List Combatant) : List Combatant := l.foldr insertDesc []

/-- `SortByInitiative` (`combat-tracker.go` lines 98-102); no auto-save of
its own (callers auto-save). -/
def SortByInitiative (ct : CombatTracker) : CombatTracker :=
  { ct with combatants := sortDesc ct.combatants }

/-- `StartCombat` (`combat-tracker.go` lines 105-122): error and no state
change with an empty roster; otherwise sort, `round = 1`,
`currentTurnIdx = 0`, `isActive = true`, auto-save. -/
def StartCombat (ct : CombatTracker) : OpResult :=
  if ct.combatants.length = 0 then ⟨ct, false, true⟩
  else
    ⟨{ ct.SortByInitiative with
         round := 1
         currentTurnIdx := 0
         isActive := true }, true, false⟩

/-- `NextTurn` (`combat-tracker.go` lines 125-142): error when inactive;
otherwise increment the turn index, wrapping to 0 (and bumping the round)
when it reaches the roster length; auto-save. -/
def NextTurn (ct : CombatTracker) : OpResult :=
  if ct.isActive then
    let idx := ct.currentTurnIdx + 1
    if idx ≥ (ct.combatants.length : Int) then
      ⟨{ ct with round := ct.round + 1, currentTurnIdx := 0 }, true, false⟩
    else ⟨{ ct with currentTurnIdx := idx }, true, false⟩
  else ⟨ct, false, true⟩

/-- Damage branch of `AdjustHP` (`combat-tracker.go` lines 154-178), with
`damage` the already-negated amount: temporary HP absorbs first, remainder
hits `currentHP`, which is floored at 0 with `isConscious` cleared when the
post-damage value is ≤ 0.  Each `-=` of the source wraps as Go's `int`
does (`TemporaryHP -= damage`, `damage -= TemporaryHP`,
`CurrentHP -= damage`), hence the `wrap64` at those three sites. -/
def applyDamage (c : Combatant) (damage : Int) : Combatant :=
  let td : Int × Int :=
    if c.temporaryHP > 0 then
      if damage ≤ c.temporaryHP then (wrap64 (c.temporaryHP - damage), 0)
      else (0, wrap64 (damage - c.temporaryHP))
    else (c.temporaryHP, damage)
  let cur := if td.2 > 0 then wrap64 (c.currentHP - td.2) else c.currentHP
  if cur ≤ 0 then
    { c with temporaryHP := td.1, currentHP := 0, isConscious := false }
  else { c with temporaryHP := td.1, currentHP := cur }

/-- Healing branch of `AdjustHP` (`combat-tracker.go` lines 179-189):
add (`CurrentHP += amount` wraps as Go's `int` does, hence `wrap64`), cap at
`maxHP`, and wake the combatant when unconscious and the capped value is
positive. -/
def applyHealing (c : Combatant) (amount : Int) : Combatant :=
  let cur0 := wrap64 (c.currentHP + amount)
  let cur := if cur0 > c.maxHP then c.maxHP else cur0
  { c with currentHP := cur
           isConscious :=
             if c.isConscious = false ∧ cur > 0 then true else c.isConscious }

/-- `AdjustHP` (`combat-tracker.go` lines 145-199): index guard, then damage
or healing on the indexed combatant; auto-save on success.  The source's
`damage := -amount` is Go `int` negation, which wraps at
`amount = -2^63` (the negation of the minimum `int64` is itself), hence
`wrap64` around the negation. -/
def AdjustHP (ct : CombatTracker) (index amount : Int) : OpResult :=
  if index < 0 ∨ index ≥ (ct.combatants.length : Int) then ⟨ct, false, true⟩
  else
    ⟨{ ct with
         combatants := modifyIdx ct.combatants index.toNat
           (fun c => if amount < 0 then applyDamage c (wrap64 (-amount))
                     else applyHealing c amount) }, true, false⟩

/-- `AddTemporaryHP` (`combat-tracker.go` lines 202-220): index guard; the
new amount replaces the old temporary HP only when strictly greater; the
`AutoSave()` call at line 219 runs on BOTH branches, i.e. also when no change
was applied. -/
def AddTemporaryHP (ct : CombatTracker) (index amount : Int) : OpResult :=
  if index < 0 ∨ index ≥ (ct.combatants.length : Int) then ⟨ct, false, true⟩
  else
    ⟨{ ct with
         combatants := modifyIdx ct.combatants index.toNat
           (fun c =>
             if amount > c.temporaryHP then { c with temporaryHP := amount }
             else c) }, true, false⟩

/-- `AddStatusEffect` (`combat-tracker.go` lines 223-235): index guard, then
unconditional append; auto-save. -/
def AddStatusEffect (ct : CombatTracker) (index : Int) (effect : String) :
    OpResult :=
  if index < 0 ∨ index ≥ (ct.combatants.length : Int) then ⟨ct, false, true⟩
  else
    ⟨{ ct with
         combatants := modifyIdx ct.combatants index.toNat
           (fun c => { c with statusEffects := c.statusEffects ++ [effect] }) },
      true, false⟩

/-- The swap-with-last removal of the first occurrence, from
`RemoveStatusEffect` (`combat-tracker.go` lines 246-257): the matched slot is
overwritten with the last element and the list truncated by one; `none` when
the label is absent. -/
def swapRemoveFirst (l : List String) (x : String) : Option (List String) :=
  match l.findIdx? (· == x) with
  | none => none
  | some i => some ((l.set i (l.getLast?.getD "")).dropLast)

/-- `RemoveStatusEffect` (`combat-tracker.go` lines 238-260): index guard;
removes the first matching label by swap-with-last truncation and auto-saves;
when the label is absent, no state change and no auto-save (the "was not
affected" message is informational, not a validation error).  The inner
`none` case of the roster lookup is unreachable once the guard has passed. -/
def RemoveStatusEffect (ct : CombatTracker) (index : Int) (effect : String) :
    OpResult :=
  if index < 0 ∨ index ≥ (ct.combatants.length : Int) then ⟨ct, false, true⟩
  else
    match (ct.combatants.get? index.toNat) with
    | none => ⟨ct, false, true⟩
    | some c =>
        match swapRemoveFirst c.statusEffects effect with
        | some l =>
            ⟨{ ct with
                 combatants := modifyIdx ct.combatants index.toNat
                   (fun d => { d with statusEffects := l }) }, true, false⟩
        | none => ⟨ct, false, false⟩

/-- `EndCombat` (`combat-tracker.go` lines 310-324): error when inactive;
otherwise clears `isActive` (round and turn index retained) and auto-saves. -/
def EndCombat (ct : CombatTracker) : OpResult :=
  if ct.isActive then ⟨{ ct with isActive := false }, true, false⟩
  else ⟨ct, false, true⟩

/-- `SetEncounterDetails` (`combat-tracker.go` lines 410-417): unconditional
overwrite of both labels; auto-save. -/
def SetEncounterDetails (ct : CombatTracker) (campaign encounter : String) :
    OpResult :=
  ⟨{ ct with
       campaignName := campaign
       encounterName := encounter }, true, false⟩

/-- The trailing-number computation of `DuplicateCombatant`
(`combat-tracker.go` lines 445-454): the loop walks the name from its END
toward the front, doing `lastNumber = lastNumber*10 + digit` at each step, so
the trailing digit run is accumulated in REVERSED order ("Orc12" yields 21,
not 12). -/
def trailingNumberRev (s : String) : Nat :=
  (s.data.reverse.takeWhile Char.isDigit).foldl
    (fun acc c => acc * 10 + (c.toNat - '0'.toNat)) 0

/-- `strings.TrimRight(baseName, "0123456789")` (`combat-tracker.go` line 457). -/
def stripTrailingDigits (s : String) : String :=
  ⟨(s.data.reverse.dropWhile Char.isDigit).reverse⟩

/-- `DuplicateCombatant` (`combat-tracker.go` lines 435-480): index guard;
derives `lastNumber` (reversed trailing digits) and the base name (digits
stripped only when `lastNumber > 0`), appends `count` fresh copies named
`base ++ toString (lastNumber + i + 1)`, and auto-saves — note the engine
function itself does not validate `count` (the `count < 1` check lives in the
command handler `handleDuplicateCombatant`, lines 845-851), so `count ≤ 0`
appends nothing but still reaches the `AutoSave()` call.  The inner `none`
case of the roster lookup is unreachable once the guard has passed. -/
def DuplicateCombatant (ct : CombatTracker) (index count : Int) : OpResult :=
  if index < 0 ∨ index ≥ (ct.combatants.length : Int) then ⟨ct, false, true⟩
  else
    match (ct.combatants.get? index.toNat) with
    | none => ⟨ct, false, true⟩
    | some original =>
        let lastNumber := trailingNumberRev original.name
        let baseName :=
          if lastNumber > 0 then stripTrailingDigits original.name
          else original.name
        let copies := (List.range count.toNat).map fun i =>
          Combatant.mk (baseName ++ toString (lastNumber + i + 1))
            original.initiative original.maxHP original.maxHP
            original.isPlayer true 0 []
        ⟨{ ct with combatants := ct.combatants ++ copies }, true, false⟩

/-- The duplicate-combatant command path: `handleDuplicateCombatant`
(`combat-tracker.go` lines 835-854) rejects `count < 1` with "Invalid number
of copies!" before the engine function is ever called, so the spec-level
DuplicateCombatant operation fails on `count < 1` with no state change and no
auto-save. -/
def DuplicateCombatantCmd (ct : CombatTracker) (index count : Int) : OpResult :=
  if count < 1 then ⟨ct, false, true⟩
  else ct.DuplicateCombatant index count

/-- `ChangeInitiative` (`combat-tracker.go` lines 483-503): index guard;
overwrites the initiative, re-sorts when combat is active, auto-saves. -/
def ChangeInitiative (ct : CombatTracker) (index newInitiative : Int) :
    OpResult :=
  if index < 0 ∨ index ≥ (ct.combatants.length : Int) then ⟨ct, false, true⟩
  else
    let ct1 := { ct with
                   combatants := modifyIdx ct.combatants index.toNat
                     (fun c => { c with initiative := newInitiative }) }
    ⟨if ct1.isActive then ct1.SortByInitiative else ct1, true, false⟩

end CombatTracker

/-- `SaveToFile`'s payload construction (`combat-tracker.go` lines 327-349).
The JSON encoding of the `SaveState` record is modelled by the record itself:
all its field types round-trip through Go's `encoding/json`, except
`SaveFilePath`, whose json:"-" tag omits it from the payload — modelled by
clearing it to the string zero value it gets on deserialization. -/
def Serialize (ct : CombatTracker) (saveTime : String) : SaveState :=
  { combatTracker := { ct with saveFilePath := "" }
    saveTime := saveTime
    version := "1.0.0" }

/-- `LoadFromFile`'s successful path (`combat-tracker.go` lines 364-407),
given the decoded payload and the filename read from: sets the tracker's save
path to that filename, then replaces an empty status-effect catalog with the
default one.  File reading and JSON parse failures are not modelled. -/
def LoadFromFile (s : SaveState) (filename : String) : CombatTracker :=
  let ct0 := { s.combatTracker with saveFilePath := filename }
  if ct0.statusEffects.length = 0 then { ct0 with statusEffects := defaultEffects }
  else ct0

/-- States reachable from a fresh tracker by sequences of engine operations
(the mutating methods of `CombatTracker`). -/
inductive Reachable : CombatTracker → Prop
  | init : Reachable NewCombatTracker
  | add (ct : CombatTracker) (n : String) (i m : Int) (p : Bool) :
      Reachable ct → Reachable (ct.AddCombatant n i m p).state
  | start (ct : CombatTracker) : Reachable ct → Reachable ct.StartCombat.state
  | next (ct : CombatTracker) : Reachable ct → Reachable ct.NextTurn.state
  | adjust (ct : CombatTracker) (i a : Int) :
      Reachable ct → Reachable (ct.AdjustHP i a).state
  | tempHP (ct : CombatTracker) (i a : Int) :
      Reachable ct → Reachable (ct.AddTemporaryHP i a).state
  | addStatus (ct : CombatTracker) (i : Int) (e : String) :
      Reachable ct → Reachable (ct.AddStatusEffect i e).state
  | removeStatus (ct : CombatTracker) (i : Int) (e : String) :
      Reachable ct → Reachable (ct.RemoveStatusEffect i e).state
  | stop (ct : CombatTracker) : Reachable ct → Reachable ct.EndCombat.state
  | details (ct : CombatTracker) (c e : String) :
      Reachable ct → Reachable (ct.SetEncounterDetails c e).state
  | dup (ct : CombatTracker) (i k : Int) :
      Reachable ct → Reachable (ct.DuplicateCombatant i k).state
  | changeInit (ct : CombatTracker) (i v : Int) :
      Reachable ct → Reachable (ct.ChangeInitiative i v).state

/-! ## Helper lemmas about the list primitives of the embedding -/

theorem modifyIdx_eq_set (l : List Combatant) (n : Nat)
    (f : Combatant → Combatant) (c : Combatant) (h : l.get? n = some c) :
    modifyIdx l n f = l.set n (f c) := by
  induction l generalizing n with
  | nil => simp at h
  | cons d rest ih =>
      cases n with
      | zero =>
          simp only [List.get?] at h
          cases h
          rfl
      | succ m =>
          simp only [List.get?] at h
          simp [modifyIdx, List.set, ih m h]

theorem modifyIdx_length (l : List Combatant) (n : Nat)
    (f : Combatant → Combatant) : (modifyIdx l n f).length = l.length := by
  induction l generalizing n with
  | nil => rfl
  | cons d rest ih =>
      cases n with
      | zero => rfl
      | succ m => simp [modifyIdx, ih m]

theorem mem_modifyIdx (l : List Combatant) (n : Nat)
    (f : Combatant → Combatant) (x : Combatant) (hx : x ∈ modifyIdx l n f) :
    x ∈ l ∨ ∃ c ∈ l, x = f c := by
  induction l generalizing n with
  | nil => simp [modifyIdx] at hx
  | cons d rest ih =>
      cases n with
      | zero =>
          rcases List.mem_cons.mp hx with h | h
          · exact Or.inr ⟨d, List.mem_cons_self d rest, h⟩
          · exact Or.inl (List.mem_cons_of_mem d h)
      | succ m =>
          rcases List.mem_cons.mp hx with h | h
          · exact Or.inl (h ▸ List.mem_cons_self d rest)
          · rcases ih m h with h' | ⟨c, hc, hc'⟩
            · exact Or.inl (List.mem_cons_of_mem d h')
            · exact Or.inr ⟨c, List.mem_cons_of_mem d hc, hc'⟩

theorem insertDesc_length (c : Combatant) (l : List Combatant) :
    (CombatTracker.insertDesc c l).length = l.length + 1 := by
  induction l with
  | nil => rfl
  | cons d rest ih =>
      unfold CombatTracker.insertDesc
      split
      · rfl
      · simp [ih]

theorem sortDesc_length (l : List Combatant) :
    (CombatTracker.sortDesc l).length = l.length := by
  induction l with
  | nil => rfl
  | cons d rest ih =>
      show (CombatTracker.insertDesc d (CombatTracker.sortDesc rest)).length = _
      rw [insertDesc_length, ih]
      rfl

theorem wrap64_eq_self (x : Int) (h1 : -9223372036854775808 ≤ x)
    (h2 : x < 9223372036854775808) : wrap64 x = x := by
  unfold wrap64
  omega

theorem wrap64_lb (x : Int) : -9223372036854775808 ≤ wrap64 x := by
  unfold wrap64
  omega

theorem wrap64_ub (x : Int) : wrap64 x < 9223372036854775808 := by
  unfold wrap64
  omega

/-! ## Concrete states used by counterexamples and witnesses -/

/-- A tracker holding a single combatant named "Orc12". -/
def orc12Tracker : CombatTracker :=
  { NewCombatTracker with combatants := [⟨"Orc12", 2, 10, 10, false, true, 0, []⟩] }

/-- A tracker holding a single combatant that already has 5 temporary HP. -/
def tempHP5Tracker : CombatTracker :=
  { NewCombatTracker with combatants := [⟨"A", 1, 10, 10, true, true, 5, []⟩] }

/-! ## C8 -/

/-- C8 counterexample: a freshly created tracker's status-effect catalog is
NOT the fourteen-entry catalog the claim lists — the source seeds a fifteenth
entry, "Custom Status Effect". -/
theorem newTracker_catalog_ne_fourteen :
    NewCombatTracker.statusEffects ≠
      ["Blinded", "Charmed", "Deafened", "Frightened", "Grappled",
       "Incapacitated", "Invisible", "Paralyzed", "Petrified", "Poisoned",
       "Prone", "Restrained", "Stunned", "Unconscious"] := by decide

/-- C8 (amended): a freshly created tracker's catalog equals the fixed
15-entry default catalog — the fourteen conditions of the claim plus a final
"Custom Status Effect" entry — and loading a persisted encounter whose
catalog is empty replaces it with that same 15-entry catalog. -/
theorem default_catalog_spec (s : SaveState) (dest : String)
    (h : s.combatTracker.statusEffects = []) :
    NewCombatTracker.statusEffects =
      ["Blinded", "Charmed", "Deafened", "Frightened", "Grappled",
       "Incapacitated", "Invisible", "Paralyzed", "Petrified", "Poisoned",
       "Prone", "Restrained", "Stunned", "Unconscious",
       "Custom Status Effect"] ∧
    (LoadFromFile s dest).statusEffects =
      ["Blinded", "Charmed", "Deafened", "Frightened", "Grappled",
       "Incapacitated", "Invisible", "Paralyzed", "Petrified", "Poisoned",
       "Prone", "Restrained", "Stunned", "Unconscious",
       "Custom Status Effect"] := by
  constructor
  · rfl
  · unfold LoadFromFile
    simp [h]
    rfl

/-- C8 witness: loading a concrete payload with an empty catalog yields the
15-entry default catalog. -/
theorem default_catalog_spec_witness :
    (LoadFromFile ⟨{ NewCombatTracker with statusEffects := [] }, "t", "1.0.0"⟩
        "save.json").statusEffects =
      ["Blinded", "Charmed", "Deafened", "Frightened", "Grappled",
       "Incapacitated", "Invisible", "Paralyzed", "Petrified", "Poisoned",
       "Prone", "Restrained", "Stunned", "Unconscious",
       "Custom Status Effect"] :=
  (default_catalog_spec
    ⟨{ NewCombatTracker with statusEffects := [] }, "t", "1.0.0"⟩
    "save.json" rfl).2

/-! ## C4 -/

/-- C4: evaluating the source's `DuplicateCombatant` at the failing input —
a combatant named "Orc12", `count = 1`.  The digit-accumulation loop walks
the name right to left, so the trailing run "12" is read as 21 and the copy
is named "Orc22"; the claim (and the function's own "incremented names"
documentation) require trailing number 12 and the copy "Orc13". -/
theorem duplicate_reverses_trailing_digits :
    CombatTracker.trailingNumberRev "Orc12" = 21 ∧
    ((orc12Tracker.DuplicateCombatant 0 1).state.combatants.map Combatant.name)
      = ["Orc12", "Orc22"] := by decide

/-! ## C5 -/

/-- C5 counterexample: with 5 temporary HP in place, `AddTemporaryHP i 3`
applies no change (the lower value is rejected) yet still triggers the
auto-save — the `AutoSave()` call at line 219 of the source runs on both
branches, contradicting "triggers an auto-save only when such a change is
applied". -/
theorem addTempHP_autosaves_without_change :
    (tempHP5Tracker.AddTemporaryHP 0 3).state = tempHP5Tracker ∧
    (tempHP5Tracker.AddTemporaryHP 0 3).autoSaved = true := by decide

/-- C5 (amended): for every in-range index, `AddTemporaryHP` replaces the
combatant's temporary HP with the new amount exactly when it is strictly
greater than the existing value, leaves the existing value otherwise, and
triggers an auto-save on every such call, whether or not a change was
applied. -/
theorem addTempHP_spec (ct : CombatTracker) (i a : Int) (c : Combatant)
    (hi : 0 ≤ i) (hc : ct.combatants.get? i.toNat = some c) :
    ct.AddTemporaryHP i a =
      ⟨{ ct with
           combatants := ct.combatants.set i.toNat
             (if a > c.temporaryHP then { c with temporaryHP := a } else c) },
        true, false⟩ := by
  have hlt : i.toNat < ct.combatants.length := by
    rcases List.get?_eq_some.mp hc with ⟨hl, _⟩
    exact hl
  have hguard : ¬(i < 0 ∨ i ≥ (ct.combatants.length : Int)) := by
    push_neg
    omega
  unfold CombatTracker.AddTemporaryHP
  rw [if_neg hguard,
    modifyIdx_eq_set _ _ _ c hc]

/-- C5 witness: a concrete in-range call (raising 5 to 8). -/
theorem addTempHP_spec_witness :
    tempHP5Tracker.AddTemporaryHP 0 8 =
      ⟨{ tempHP5Tracker with
           combatants := tempHP5Tracker.combatants.set 0
             (if (8 : Int) > (⟨"A", 1, 10, 10, true, true, 5, []⟩ : Combatant).temporaryHP
              then { (⟨"A", 1, 10, 10, true, true, 5, []⟩ : Combatant) with
                       temporaryHP := 8 }
              else ⟨"A", 1, 10, 10, true, true, 5, []⟩) },
        true, false⟩ := by
  exact addTempHP_spec tempHP5Tracker 0 8 _ (by decide) (by decide)

/-! ## C6 -/

/-- `n` successive `NextTurn` calls (each has already committed its state
before the next begins). -/
def NextTurnIter (ct : CombatTracker) : Nat → CombatTracker
  | 0 => ct
  | Nat.succ n => ((NextTurnIter ct n).NextTurn).state

theorem NextTurnIter_lt (ct : CombatTracker) (ha : ct.isActive = true)
    (h0 : ct.currentTurnIdx = 0) :
    ∀ k : Nat, k < ct.combatants.length →
      NextTurnIter ct k = { ct with currentTurnIdx := (k : Int) } := by
  intro k
  induction k with
  | zero =>
      intro _
      show ct = _
      cases ct
      simp only at h0
      subst h0
      rfl
  | succ m ih =>
      intro hlt
      have hm := ih (Nat.lt_of_succ_lt hlt)
      show ((NextTurnIter ct m).NextTurn).state = _
      rw [hm]
      show (CombatTracker.NextTurn { ct with currentTurnIdx := (m : Int) }).state = _
      unfold CombatTracker.NextTurn
      have hc : ¬((m : Int) + 1 ≥ (ct.combatants.length : Int)) := by
        omega
      simp only [ha, if_true, hc, if_false]
      have hcast : ((m + 1 : Nat) : Int) = (m : Int) + 1 := by omega
      rw [hcast]

/-- C6: with combat active and the turn index at 0, calling `NextTurn` once
per combatant returns the index to 0 with the round up by exactly one; each
intermediate call merely increments the index, and any active-state call
either increments the index (when `idx+1` is below the roster length) or
wraps it to 0 and increments the round (when `idx+1` reaches the length). -/
theorem nextTurn_full_cycle (ct : CombatTracker) (ha : ct.isActive = true)
    (h0 : ct.currentTurnIdx = 0) (hne : ct.combatants ≠ []) :
    NextTurnIter ct ct.combatants.length =
      { ct with round := ct.round + 1, currentTurnIdx := 0 } ∧
    (∀ k : Nat, k + 1 < ct.combatants.length →
      NextTurnIter ct (k + 1) = { ct with currentTurnIdx := (k : Int) + 1 }) ∧
    (∀ s : CombatTracker, s.isActive = true →
      (s.currentTurnIdx + 1 ≥ (s.combatants.length : Int) →
        s.NextTurn.state =
          { s with round := s.round + 1, currentTurnIdx := 0 }) ∧
      (s.currentTurnIdx + 1 < (s.combatants.length : Int) →
        s.NextTurn.state = { s with currentTurnIdx := s.currentTurnIdx + 1 })) := by
  refine ⟨?_, ?_, ?_⟩
  · obtain ⟨n, hn⟩ : ∃ n, ct.combatants.length = n + 1 := by
      cases hl : ct.combatants with
      | nil => exact absurd hl hne
      | cons a as => exact ⟨as.length, by simp [hl]⟩
    rw [hn]
    show ((NextTurnIter ct n).NextTurn).state = _
    rw [NextTurnIter_lt ct ha h0 n (by omega)]
    show (CombatTracker.NextTurn { ct with currentTurnIdx := (n : Int) }).state = _
    unfold CombatTracker.NextTurn
    have hc : (n : Int) + 1 ≥ (ct.combatants.length : Int) := by
      rw [hn]; omega
    simp only [ha, if_true, hc, if_true, ge_iff_le]
  · intro k hk
    rw [NextTurnIter_lt ct ha h0 (k + 1) hk]
    have : ((k + 1 : Nat) : Int) = (k : Int) + 1 := by omega
    rw [this]
  · intro s hs
    constructor
    · intro hw
      unfold CombatTracker.NextTurn
      simp only [hs, if_true, hw, if_true, ge_iff_le]
    · intro hw
      unfold CombatTracker.NextTurn
      have : ¬(s.currentTurnIdx + 1 ≥ (s.combatants.length : Int)) := by omega
      simp only [hs, if_true, this, if_false]

/-- A two-combatant tracker mid-combat, used to witness the turn cycle. -/
def twoTracker : CombatTracker :=
  { NewCombatTracker with
      combatants := [⟨"Wolf", 15, 10, 10, false, true, 0, []⟩,
                     ⟨"Hero", 10, 20, 20, true, true, 0, []⟩]
      round := 1
      currentTurnIdx := 0
      isActive := true }

/-- C6 witness: two `NextTurn` calls on a two-combatant active tracker wrap
back to index 0 with the round up by one. -/
theorem nextTurn_full_cycle_witness :
    NextTurnIter twoTracker twoTracker.combatants.length =
      { twoTracker with round := twoTracker.round + 1, currentTurnIdx := 0 } :=
  (nextTurn_full_cycle twoTracker (by decide) (by decide) (by decide)).1

/-! ## C3 -/

/-- Modelled from the claim's wording, for comparison with the code's damage
branch: the magnitude first depletes temporary HP (down to 0), any remainder
is subtracted from `currentHP`, which is floored at 0; `isConscious` becomes
false exactly when the resulting `currentHP` is 0. -/
def claimDamage (c : Combatant) (d : Int) : Combatant :=
  let rem := max 0 (d - c.temporaryHP)
  let cur := max 0 (c.currentHP - rem)
  { c with
      temporaryHP := max 0 (c.temporaryHP - d)
      currentHP := cur
      isConscious := if cur = 0 then false else c.isConscious }

/-- Modelled from the claim's wording, for comparison with the code's healing
branch: the delta is added to `currentHP`, capped at `maxHP`; a previously
unconscious combatant with resulting `currentHP > 0` becomes conscious. -/
def claimHeal (c : Combatant) (d : Int) : Combatant :=
  let cur := min (c.currentHP + d) c.maxHP
  { c with
      currentHP := cur
      isConscious :=
        if c.isConscious = false ∧ 0 < cur then true else c.isConscious }

/-- A tracker holding one combatant at 5/10 HP, used for the overflow
counterexample. -/
def halfHPTracker : CombatTracker :=
  { NewCombatTracker with combatants := [⟨"A", 1, 10, 5, true, true, 0, []⟩] }

/-- C3 counterexample: at the accepted input `delta = 2^63 - 1` (the maximum
`int64`, accepted by `strconv.Atoi`), the source's `CurrentHP += amount` on a
combatant with `currentHP = 5` wraps to `-9223372036854775804`, so the
result is NOT the claim's `currentHP` capped at `maxHP` (which would be 10):
the claim's formula fails at this in-range call. -/
theorem adjustHP_overflow_counterexample :
    ((halfHPTracker.AdjustHP 0 9223372036854775807).state.combatants.map
        Combatant.currentHP) = [-9223372036854775804] ∧
    (claimHeal ⟨"A", 1, 10, 5, true, true, 0, []⟩ 9223372036854775807).currentHP
      = 10 ∧
    (halfHPTracker.AdjustHP 0 9223372036854775807).state ≠
      { halfHPTracker with
          combatants := halfHPTracker.combatants.set 0
            (if (9223372036854775807 : Int) < 0
             then claimDamage ⟨"A", 1, 10, 5, true, true, 0, []⟩
                    (-(9223372036854775807 : Int))
             else claimHeal ⟨"A", 1, 10, 5, true, true, 0, []⟩
                    9223372036854775807) } := by
  refine ⟨by decide, by decide, by decide⟩

theorem applyDamage_eq_claim (c : Combatant) (e : Int) (he : 0 < e)
    (heB : e < 9223372036854775808)
    (ht : 0 ≤ c.temporaryHP) (htB : c.temporaryHP < 9223372036854775808)
    (hcur : 0 ≤ c.currentHP) (hcurB : c.currentHP < 9223372036854775808) :
    CombatTracker.applyDamage c e = claimDamage c e := by
  rcases c with ⟨nm, ini, mx, cur, pl, cs, tmp, eff⟩
  simp only at ht htB hcur hcurB
  unfold CombatTracker.applyDamage claimDamage wrap64
  dsimp only
  split_ifs <;>
    simp_all only [Combatant.mk.injEq, true_and, and_true] <;>
    omega

theorem applyHealing_eq_claim (c : Combatant) (d : Int)
    (h1 : -9223372036854775808 ≤ c.currentHP + d)
    (h2 : c.currentHP + d < 9223372036854775808) :
    CombatTracker.applyHealing c d = claimHeal c d := by
  rcases c with ⟨nm, ini, mx, cur, pl, cs, tmp, eff⟩
  simp only at h1 h2
  unfold CombatTracker.applyHealing claimHeal wrap64
  dsimp only
  split_ifs <;>
    simp_all only [Combatant.mk.injEq, true_and, and_true] <;>
    omega

/-- C3 (amended): for every in-range index, with the combatant's temporary
and current HP non-negative and below `2^63` (as every engine-mediated state
keeps them) and a delta whose 64-bit arithmetic cannot overflow
(`-2^63 < delta` and `currentHP + delta < 2^63`), `AdjustHP` behaves exactly
as the claim describes: a negative delta first depletes temporary HP by its
magnitude, subtracts the remainder from `currentHP` floored at 0, clearing
`isConscious` exactly when `currentHP` ends at 0; a non-negative delta is
added to `currentHP` capped at `maxHP`, waking an unconscious combatant
whose `currentHP` becomes positive.  At accepted inputs that overflow,
the source's wrapping `int` arithmetic violates these formulas
(see the counterexample above). -/
theorem adjustHP_matches_claim (ct : CombatTracker) (i d : Int) (c : Combatant)
    (hi : 0 ≤ i) (hc : ct.combatants.get? i.toNat = some c)
    (ht : 0 ≤ c.temporaryHP) (htB : c.temporaryHP < 9223372036854775808)
    (hcur : 0 ≤ c.currentHP) (hcurB : c.currentHP < 9223372036854775808)
    (hd : -9223372036854775808 < d)
    (hdB : c.currentHP + d < 9223372036854775808) :
    ct.AdjustHP i d =
      ⟨{ ct with
           combatants := ct.combatants.set i.toNat
             (if d < 0 then claimDamage c (-d) else claimHeal c d) },
        true, false⟩ := by
  have hlt : i.toNat < ct.combatants.length := by
    rcases List.get?_eq_some.mp hc with ⟨hl, _⟩
    exact hl
  have hguard : ¬(i < 0 ∨ i ≥ (ct.combatants.length : Int)) := by
    push_neg
    omega
  unfold CombatTracker.AdjustHP
  rw [if_neg hguard, modifyIdx_eq_set _ _ _ c hc]
  by_cases hdneg : d < 0
  · rw [if_pos hdneg, if_pos hdneg,
      wrap64_eq_self (-d) (by omega) (by omega),
      applyDamage_eq_claim c (-d) (by omega) (by omega) ht htB hcur hcurB]
  · rw [if_neg hdneg, if_neg hdneg,
      applyHealing_eq_claim c d (by omega) hdB]

/-- A tracker holding one wounded-prone combatant used to witness C3. -/
def hurtTracker : CombatTracker :=
  { NewCombatTracker with combatants := [⟨"A", 5, 10, 10, true, true, 3, []⟩] }

/-- C3 witness: 5 damage against 3 temporary HP on a full-HP combatant. -/
theorem adjustHP_matches_claim_witness :
    hurtTracker.AdjustHP 0 (-5) =
      ⟨{ hurtTracker with
           combatants := hurtTracker.combatants.set 0
             (if (-5 : Int) < 0
              then claimDamage ⟨"A", 5, 10, 10, true, true, 3, []⟩ (-(-5 : Int))
              else claimHeal ⟨"A", 5, 10, 10, true, true, 3, []⟩ (-5 : Int)) },
        true, false⟩ := by
  exact adjustHP_matches_claim hurtTracker 0 (-5) _ (by decide) (by decide)
    (by decide) (by decide) (by decide) (by decide) (by decide) (by decide)

/-! ## C7 -/

/-- C7: every validation error — an index outside `[0, len)` for any indexed
operation, `count < 1` for the duplicate-combatant command, `StartCombat`
with an empty roster, `NextTurn` or `EndCombat` in the wrong activity state —
is reported (`errored = true`), aborts the operation with the in-memory state
unchanged, and triggers no auto-save.  The `count < 1` check is performed by
the command handler `handleDuplicateCombatant` before the engine function is
called. -/
theorem validation_errors_abort (ct : CombatTracker) (i a v count : Int)
    (e : String) :
    ((i < 0 ∨ i ≥ (ct.combatants.length : Int)) →
        ct.AdjustHP i a = ⟨ct, false, true⟩ ∧
        ct.AddTemporaryHP i a = ⟨ct, false, true⟩ ∧
        ct.AddStatusEffect i e = ⟨ct, false, true⟩ ∧
        ct.RemoveStatusEffect i e = ⟨ct, false, true⟩ ∧
        ct.DuplicateCombatant i count = ⟨ct, false, true⟩ ∧
        ct.ChangeInitiative i v = ⟨ct, false, true⟩) ∧
    (count < 1 → ct.DuplicateCombatantCmd i count = ⟨ct, false, true⟩) ∧
    (ct.combatants = [] → ct.StartCombat = ⟨ct, false, true⟩) ∧
    (ct.isActive = false →
      ct.NextTurn = ⟨ct, false, true⟩ ∧ ct.EndCombat = ⟨ct, false, true⟩) := by
  refine ⟨?_, ?_, ?_, ?_⟩
  · intro hbad
    refine ⟨?_, ?_, ?_, ?_, ?_, ?_⟩ <;>
      simp only [CombatTracker.AdjustHP, CombatTracker.AddTemporaryHP,
        CombatTracker.AddStatusEffect, CombatTracker.RemoveStatusEffect,
        CombatTracker.DuplicateCombatant, CombatTracker.ChangeInitiative,
        hbad, if_pos, ite_true, or_true, true_or]
  · intro hcount
    unfold CombatTracker.DuplicateCombatantCmd
    rw [if_pos hcount]
  · intro hempty
    unfold CombatTracker.StartCombat
    rw [if_pos (by simp [hempty])]
  · intro hinact
    constructor
    · unfold CombatTracker.NextTurn
      rw [hinact]
      rfl
    · unfold CombatTracker.EndCombat
      rw [hinact]
      rfl

/-- C7 witness: on a fresh tracker (empty roster, inactive), index `-1` and
count `0` trip every validation error with no state change, no auto-save,
and the error reported. -/
theorem validation_errors_abort_witness :
    NewCombatTracker.AdjustHP (-1) 4 = ⟨NewCombatTracker, false, true⟩ ∧
    NewCombatTracker.AddTemporaryHP (-1) 4 = ⟨NewCombatTracker, false, true⟩ ∧
    NewCombatTracker.AddStatusEffect (-1) "Prone" = ⟨NewCombatTracker, false, true⟩ ∧
    NewCombatTracker.RemoveStatusEffect (-1) "Prone" = ⟨NewCombatTracker, false, true⟩ ∧
    NewCombatTracker.DuplicateCombatant (-1) 0 = ⟨NewCombatTracker, false, true⟩ ∧
    NewCombatTracker.ChangeInitiative (-1) 7 = ⟨NewCombatTracker, false, true⟩ ∧
    NewCombatTracker.DuplicateCombatantCmd (-1) 0 = ⟨NewCombatTracker, false, true⟩ ∧
    NewCombatTracker.StartCombat = ⟨NewCombatTracker, false, true⟩ ∧
    NewCombatTracker.NextTurn = ⟨NewCombatTracker, false, true⟩ ∧
    NewCombatTracker.EndCombat = ⟨NewCombatTracker, false, true⟩ := by
  have h := validation_errors_abort NewCombatTracker (-1) 4 7 0 "Prone"
  have hbad := h.1 (by decide)
  exact ⟨hbad.1, hbad.2.1, hbad.2.2.1, hbad.2.2.2.1, hbad.2.2.2.2.1,
    hbad.2.2.2.2.2, h.2.1 (by decide), h.2.2.1 (by decide),
    (h.2.2.2 (by decide)).1, (h.2.2.2 (by decide)).2⟩

/-! ## C9 -/

/-- The claimed HP invariant: every combatant's current HP lies in
`[0, maxHP]`. -/
def HPInv (ct : CombatTracker) : Prop :=
  ∀ c ∈ ct.combatants, 0 ≤ c.currentHP ∧ c.currentHP ≤ c.maxHP

/-- C9 counterexample: `AddCombatant` accepts a negative `maxHP` and sets
`currentHP := maxHP`, so after this engine-mediated HP change a combatant has
`currentHP = -1 < 0`, violating the claimed `0 ≤ currentHP ≤ maxHP`. -/
theorem addCombatant_breaks_hp_bounds :
    ¬ (∀ c ∈ (NewCombatTracker.AddCombatant "Pit Fiend" 3 (-1) false).state.combatants,
        0 ≤ c.currentHP ∧ c.currentHP ≤ c.maxHP) := by decide

theorem applyDamage_bounds (c : Combatant) (e : Int)
    (he1 : -9223372036854775808 ≤ e) (he2 : e < 9223372036854775808)
    (h : 0 ≤ c.currentHP ∧ c.currentHP ≤ c.maxHP)
    (hmax : c.maxHP < 9223372036854775808) :
    0 ≤ (CombatTracker.applyDamage c e).currentHP ∧
      (CombatTracker.applyDamage c e).currentHP ≤
        (CombatTracker.applyDamage c e).maxHP := by
  unfold CombatTracker.applyDamage wrap64
  dsimp only
  split_ifs <;> (try dsimp only) <;> omega

theorem applyHealing_bounds (c : Combatant) (a : Int) (ha : 0 ≤ a)
    (h : 0 ≤ c.currentHP ∧ c.currentHP ≤ c.maxHP)
    (hno : c.currentHP + a < 9223372036854775808) :
    0 ≤ (CombatTracker.applyHealing c a).currentHP ∧
      (CombatTracker.applyHealing c a).currentHP ≤
        (CombatTracker.applyHealing c a).maxHP := by
  unfold CombatTracker.applyHealing wrap64
  dsimp only
  split_ifs <;> (try dsimp only) <;> omega

/-- C9 (amended): provided every combatant already satisfies
`0 ≤ currentHP ≤ maxHP`, the invariant is preserved by `AddCombatant` for any
accepted input with `maxHP ≥ 0`, and by any `AdjustHP` call whose 64-bit
arithmetic cannot push `currentHP` out of range: every combatant's `maxHP`
below `2^63` and, for a healing amount, every combatant's
`currentHP + amount` below `2^63`.  (Damage amounts need no bound: even the
wrapping negation at `amount = -2^63` leaves the HP bounds intact.)
`AddCombatant` with a negative `maxHP`, or a heal that overflows —
both accepted by the engine — violate the invariant. -/
theorem hp_bounds_preserved (ct : CombatTracker) (h : HPInv ct) :
    (∀ (n : String) (ini m : Int) (p : Bool), 0 ≤ m →
        HPInv (ct.AddCombatant n ini m p).state) ∧
    (∀ i a : Int,
        (∀ c ∈ ct.combatants, c.maxHP < 9223372036854775808) →
        (0 ≤ a → ∀ c ∈ ct.combatants,
          c.currentHP + a < 9223372036854775808) →
        HPInv (ct.AdjustHP i a).state) := by
  constructor
  · intro n ini m p hm c hc
    rcases List.mem_append.mp hc with hc | hc
    · exact h c hc
    · rcases List.mem_singleton.mp hc with rfl
      exact ⟨hm, le_refl m⟩
  · intro i a hmax hheal
    unfold CombatTracker.AdjustHP
    split
    · exact h
    · intro c hc
      rcases mem_modifyIdx _ _ _ c hc with hc' | ⟨d, hd, rfl⟩
      · exact h c hc'
      · by_cases hneg : a < 0
        · rw [if_pos hneg]
          exact applyDamage_bounds d (wrap64 (-a)) (wrap64_lb _) (wrap64_ub _)
            (h d hd) (hmax d hd)
        · rw [if_neg hneg]
          exact applyHealing_bounds d a (by omega) (h d hd)
            (hheal (by omega) d hd)

/-- C9 witness: the invariant holds vacuously on a fresh tracker and is kept
by adding "Hero" with 20 max HP, and by a non-overflowing 7-damage call on a
concrete one-combatant tracker. -/
theorem hp_bounds_preserved_witness :
    HPInv (NewCombatTracker.AddCombatant "Hero" 10 20 true).state ∧
    HPInv (hurtTracker.AdjustHP 0 (-7)).state := by
  constructor
  · exact (hp_bounds_preserved NewCombatTracker
      (by intro c hc; simp [NewCombatTracker] at hc)).1 "Hero" 10 20 true
      (by decide)
  · exact (hp_bounds_preserved hurtTracker
      (by unfold HPInv; decide)).2 0 (-7) (by decide) (by decide)

/-! ## Invariants of reachable states (used by C1 and C10) -/

theorem modifyIdx_ne_nil (l : List Combatant) (n : Nat)
    (f : Combatant → Combatant) (h : l ≠ []) : modifyIdx l n f ≠ [] := by
  intro hnil
  apply h
  have hlen := modifyIdx_length l n f
  rw [hnil] at hlen
  exact List.length_eq_zero.mp hlen.symm

theorem sortDesc_ne_nil (l : List Combatant) (h : l ≠ []) :
    CombatTracker.sortDesc l ≠ [] := by
  intro hnil
  apply h
  have hlen := sortDesc_length l
  rw [hnil] at hlen
  exact List.length_eq_zero.mp hlen.symm

/-- No engine operation ever touches the tracker-level status-effect catalog,
so every reachable state carries the default catalog. -/
theorem reachable_catalog (ct : CombatTracker) (h : Reachable ct) :
    ct.statusEffects = defaultEffects := by
  induction h with
  | init => rfl
  | add ct n i m p _ ih => exact ih
  | start ct _ ih =>
      unfold CombatTracker.StartCombat
      split
      · exact ih
      · exact ih
  | next ct _ ih =>
      unfold CombatTracker.NextTurn
      split
      · dsimp only
        split
        · exact ih
        · exact ih
      · exact ih
  | adjust ct i a _ ih =>
      unfold CombatTracker.AdjustHP
      split
      · exact ih
      · exact ih
  | tempHP ct i a _ ih =>
      unfold CombatTracker.AddTemporaryHP
      split
      · exact ih
      · exact ih
  | addStatus ct i e _ ih =>
      unfold CombatTracker.AddStatusEffect
      split
      · exact ih
      · exact ih
  | removeStatus ct i e _ ih =>
      unfold CombatTracker.RemoveStatusEffect
      split
      · exact ih
      · split
        · exact ih
        · split
          · exact ih
          · exact ih
  | stop ct _ ih =>
      unfold CombatTracker.EndCombat
      split
      · exact ih
      · exact ih
  | details ct c e _ ih => exact ih
  | dup ct i k _ ih =>
      unfold CombatTracker.DuplicateCombatant
      split
      · exact ih
      · split
        · exact ih
        · exact ih
  | changeInit ct i v _ ih =>
      unfold CombatTracker.ChangeInitiative
      split
      · exact ih
      · dsimp only
        split
        · exact ih
        · exact ih

/-- The turn invariant of C10: when combat is active the roster is non-empty
and the turn index is in range. -/
def TurnInv (ct : CombatTracker) : Prop :=
  ct.isActive = true →
    ct.combatants ≠ [] ∧ 0 ≤ ct.currentTurnIdx ∧
      ct.currentTurnIdx < (ct.combatants.length : Int)

theorem reachable_turnInv (ct : CombatTracker) (h : Reachable ct) :
    TurnInv ct := by
  induction h with
  | init => exact fun ha => absurd ha (by decide)
  | add ct n i m p _ ih =>
      intro ha
      obtain ⟨hne, h0, hlt⟩ := ih ha
      refine ⟨?_, h0, ?_⟩
      · show ct.combatants ++ [_] ≠ []
        simp
      · show ct.currentTurnIdx < ((ct.combatants ++ [_]).length : Int)
        rw [List.length_append]
        push_cast
        omega
  | start ct _ ih =>
      unfold CombatTracker.StartCombat
      split
      · exact ih
      · next hlen =>
          intro _
          have hpos : 0 < ct.combatants.length := Nat.pos_of_ne_zero hlen
          refine ⟨?_, le_refl 0, ?_⟩
          · show CombatTracker.sortDesc ct.combatants ≠ []
            exact sortDesc_ne_nil _ (by
              intro hnil
              rw [hnil] at hpos
              exact Nat.lt_irrefl 0 hpos)
          · show (0 : Int) < ((CombatTracker.sortDesc ct.combatants).length : Int)
            rw [sortDesc_length]
            omega
  | next ct _ ih =>
      unfold CombatTracker.NextTurn
      split
      · next hact =>
          dsimp only
          split
          · next hwrap =>
              intro _
              obtain ⟨hne, h0, hlt⟩ := ih hact
              refine ⟨hne, le_refl 0, ?_⟩
              show (0 : Int) < (ct.combatants.length : Int)
              have := List.length_pos.mpr hne
              omega
          · next hmore =>
              intro _
              obtain ⟨hne, h0, hlt⟩ := ih hact
              refine ⟨hne, ?_, ?_⟩
              · show (0 : Int) ≤ ct.currentTurnIdx + 1
                omega
              · show ct.currentTurnIdx + 1 < (ct.combatants.length : Int)
                omega
      · exact ih
  | adjust ct i a _ ih =>
      unfold CombatTracker.AdjustHP
      split
      · exact ih
      · intro ha
        obtain ⟨hne, h0, hlt⟩ := ih ha
        refine ⟨modifyIdx_ne_nil _ _ _ hne, h0, ?_⟩
        show ct.currentTurnIdx < ((modifyIdx ct.combatants i.toNat _).length : Int)
        rw [modifyIdx_length]
        omega
  | tempHP ct i a _ ih =>
      unfold CombatTracker.AddTemporaryHP
      split
      · exact ih
      · intro ha
        obtain ⟨hne, h0, hlt⟩ := ih ha
        refine ⟨modifyIdx_ne_nil _ _ _ hne, h0, ?_⟩
        show ct.currentTurnIdx < ((modifyIdx ct.combatants i.toNat _).length : Int)
        rw [modifyIdx_length]
        omega
  | addStatus ct i e _ ih =>
      unfold CombatTracker.AddStatusEffect
      split
      · exact ih
      · intro ha
        obtain ⟨hne, h0, hlt⟩ := ih ha
        refine ⟨modifyIdx_ne_nil _ _ _ hne, h0, ?_⟩
        show ct.currentTurnIdx < ((modifyIdx ct.combatants i.toNat _).length : Int)
        rw [modifyIdx_length]
        omega
  | removeStatus ct i e _ ih =>
      unfold CombatTracker.RemoveStatusEffect
      split
      · exact ih
      · split
        · exact ih
        · split
          · intro ha
            obtain ⟨hne, h0, hlt⟩ := ih ha
            refine ⟨modifyIdx_ne_nil _ _ _ hne, h0, ?_⟩
            show ct.currentTurnIdx <
              ((modifyIdx ct.combatants i.toNat _).length : Int)
            rw [modifyIdx_length]
            omega
          · exact ih
  | stop ct _ ih =>
      unfold CombatTracker.EndCombat
      split
      · intro ha
        exact Bool.noConfusion ha
      · exact ih
  | details ct c e _ ih => exact fun ha => ih ha
  | dup ct i k _ ih =>
      unfold CombatTracker.DuplicateCombatant
      split
      · exact ih
      · split
        · exact ih
        · dsimp only
          intro ha
          obtain ⟨hne, h0, hlt⟩ := ih ha
          refine ⟨?_, h0, ?_⟩
          · show ct.combatants ++ _ ≠ []
            intro hnil
            exact hne (List.append_eq_nil.mp hnil).1
          · show ct.currentTurnIdx < ((ct.combatants ++ _).length : Int)
            rw [List.length_append]
            push_cast
            omega
  | changeInit ct i v _ ih =>
      unfold CombatTracker.ChangeInitiative
      split
      · exact ih
      · dsimp only
        split
        · intro ha
          obtain ⟨hne, h0, hlt⟩ := ih ha
          refine ⟨?_, h0, ?_⟩
          · exact sortDesc_ne_nil _ (modifyIdx_ne_nil _ _ _ hne)
          · show ct.currentTurnIdx <
              ((CombatTracker.sortDesc (modifyIdx ct.combatants i.toNat _)).length : Int)
            rw [sortDesc_length, modifyIdx_length]
            omega
        · intro ha
          obtain ⟨hne, h0, hlt⟩ := ih ha
          refine ⟨modifyIdx_ne_nil _ _ _ hne, h0, ?_⟩
          show ct.currentTurnIdx < ((modifyIdx ct.combatants i.toNat _).length : Int)
          rw [modifyIdx_length]
          omega

/-! ## C10 -/

/-- C10: in every state reachable from a fresh tracker by engine operations,
`isActive = true` implies the roster is non-empty and the current turn index
is in range, so the `combatants[currentTurnIdx]` accesses performed by
`StartCombat` and `NextTurn` are always in range. -/
theorem active_state_in_range (ct : CombatTracker) (h : Reachable ct)
    (ha : ct.isActive = true) :
    ct.combatants ≠ [] ∧ 0 ≤ ct.currentTurnIdx ∧
      ct.currentTurnIdx < (ct.combatants.length : Int) :=
  reachable_turnInv ct h ha

/-- C10 witness: add one combatant, start combat; the resulting active state
has a non-empty roster and an in-range turn index. -/
theorem active_state_in_range_witness :
    ((NewCombatTracker.AddCombatant "Goblin" 12 7 false).state.StartCombat).state.combatants ≠ [] ∧
    0 ≤ ((NewCombatTracker.AddCombatant "Goblin" 12 7 false).state.StartCombat).state.currentTurnIdx ∧
    ((NewCombatTracker.AddCombatant "Goblin" 12 7 false).state.StartCombat).state.currentTurnIdx <
      (((NewCombatTracker.AddCombatant "Goblin" 12 7 false).state.StartCombat).state.combatants.length : Int) :=
  active_state_in_range _
    (Reachable.start _ (Reachable.add NewCombatTracker "Goblin" 12 7 false
      Reachable.init))
    (by decide)

/-! ## C1 -/

/-- C1: serializing any reachable tracker, persisting the payload, and
loading it back yields a tracker equal to the original in every field except
the in-memory-only save path, which is set to the destination just read.
The empty-catalog defaulting in `LoadFromFile` never fires because every
reachable state carries the (non-empty) default catalog. -/
theorem save_load_round_trip (ct : CombatTracker) (h : Reachable ct)
    (t dest : String) :
    LoadFromFile (Serialize ct t) dest = { ct with saveFilePath := dest } := by
  have hc := reachable_catalog ct h
  unfold LoadFromFile Serialize
  dsimp only
  split
  · next hzero =>
      exfalso
      have hzero' : ct.statusEffects.length = 0 := hzero
      rw [hc] at hzero'
      exact absurd hzero' (by decide)
  · rfl

/-- C1 witness: the round trip at a fresh tracker and a concrete
destination. -/
theorem save_load_round_trip_witness :
    LoadFromFile (Serialize NewCombatTracker "2024-01-01T00:00:00Z") "save.json" =
      { NewCombatTracker with saveFilePath := "save.json" } :=
  save_load_round_trip NewCombatTracker Reachable.init "2024-01-01T00:00:00Z"
    "save.json"
